import Mathlib

/-!
Verification development for the DataBase_bot repository.

The repository is a Telegram finance bot (`bot.py`) over a PostgreSQL data
access layer (`database.py`).  This file gives a shallow embedding of the
parts of the code that carry real invariants: the datetime arithmetic used
by the aggregation queries, the relational state touched by the SQL
statements, the reconnect control flow of the DAL, and the per-user
dialogue state machine, together with theorems checking the specified
properties against the embedding.

Numeric amounts are modelled as exact rationals; `datetime` values are
modelled as civil calendar records, with day arithmetic performed by
civil-day stepping (equal to Python's ordinal-based `timedelta` arithmetic
on valid dates).
-/

/-- Embedding of Python `datetime.datetime`: a civil calendar timestamp.
Fields mirror the constructor arguments of `datetime`. -/
structure PyDateTime where
  year : Int
  month : Nat
  day : Nat
  hour : Nat
  minute : Nat
  second : Nat
  microsecond : Nat
deriving DecidableEq

/-- `calendar.isleap(year)`: `year % 4 == 0 and (year % 100 != 0 or year % 400 == 0)`. -/
def isLeap (y : Int) : Bool :=
  y % 4 == 0 && (y % 100 != 0 || y % 400 == 0)

/-- `calendar.monthrange(year, month)[1]`: the number of days in the month
(`mdays` table plus the February leap-year adjustment). -/
def daysInMonth (y : Int) (m : Nat) : Nat :=
  match m with
  | 1 => 31
  | 2 => if isLeap y then 29 else 28
  | 3 => 31
  | 4 => 30
  | 5 => 31
  | 6 => 30
  | 7 => 31
  | 8 => 31
  | 9 => 30
  | 10 => 31
  | 11 => 30
  | 12 => 31
  | _ => 0

/-- Days elapsed since 1970-01-01 for a proleptic Gregorian civil date
(the ordinal arithmetic underlying Python's `datetime`). -/
def dayNumber (y : Int) (m d : Nat) : Int :=
  let ys : Int := if m ≤ 2 then y - 1 else y
  let era : Int := ys / 400
  let yoe : Int := ys - era * 400
  let mp : Int := if m ≤ 2 then (m : Int) + 9 else (m : Int) - 3
  let doy : Int := (153 * mp + 2) / 5 + (d : Int) - 1
  let doe : Int := yoe * 365 + yoe / 4 - yoe / 100 + doy
  era * 146097 + doe - 719468

/-- Ordinal day of a timestamp. -/
def PyDateTime.dayNum (t : PyDateTime) : Int :=
  dayNumber t.year t.month t.day

/-- `datetime.weekday()`: Monday is `0`, Sunday is `6`.
1970-01-01 was a Thursday (weekday `3`). -/
def PyDateTime.weekday (t : PyDateTime) : Nat :=
  ((t.dayNum + 3) % 7).toNat

/-- A timestamp as a single count of microseconds since the epoch;
Python's comparison of `datetime` values agrees with comparing these. -/
def PyDateTime.toMicros (t : PyDateTime) : Int :=
  (((t.dayNum * 24 + (t.hour : Int)) * 60 + (t.minute : Int)) * 60
      + (t.second : Int)) * 1000000 + (t.microsecond : Int)

/-- `a <= b` on `datetime` values. -/
def dtLe (a b : PyDateTime) : Bool :=
  decide (a.toMicros ≤ b.toMicros)

/-- The previous civil day. -/
def predDay (t : PyDateTime) : PyDateTime :=
  if 1 < t.day then {t with day := t.day - 1}
  else if 1 < t.month then
    {t with month := t.month - 1, day := daysInMonth t.year (t.month - 1)}
  else {t with year := t.year - 1, month := 12, day := 31}

/-- The next civil day. -/
def succDay (t : PyDateTime) : PyDateTime :=
  if t.day < daysInMonth t.year t.month then {t with day := t.day + 1}
  else if t.month < 12 then {t with month := t.month + 1, day := 1}
  else {t with year := t.year + 1, month := 1, day := 1}

/-- `t - timedelta(days=k)`, performed by civil-day stepping. -/
def subDaysD (t : PyDateTime) (k : Nat) : PyDateTime :=
  predDay^[k] t

/-- `t + timedelta(days=d, hours=h, minutes=mi, seconds=s)`:
add the time-of-day part with carry into extra days, then step days. -/
def addDelta (t : PyDateTime) (d h mi s : Nat) : PyDateTime :=
  let totalS := t.hour * 3600 + t.minute * 60 + t.second + h * 3600 + mi * 60 + s
  let extraDays := totalS / 86400
  let rem := totalS % 86400
  let t1 : PyDateTime :=
    {t with hour := rem / 3600, minute := rem % 3600 / 60, second := rem % 60}
  succDay^[d + extraDays] t1

/-- `t.replace(hour=0, minute=0, second=0, microsecond=0)`. -/
def atMidnight (t : PyDateTime) : PyDateTime :=
  {t with hour := 0, minute := 0, second := 0, microsecond := 0}

/-- A structurally valid civil date: month and day in range. -/
def ValidDate (t : PyDateTime) : Prop :=
  1 ≤ t.month ∧ t.month ≤ 12 ∧ 1 ≤ t.day ∧ t.day ≤ daysInMonth t.year t.month

instance (t : PyDateTime) : Decidable (ValidDate t) := by
  unfold ValidDate; infer_instance

/-- A row of the `users` table: `users(user_id PK, name, currency)`. -/
structure UserRow where
  user_id : Int
  name : String
  currency : String
deriving DecidableEq

/-- A row of the `transactions` table (the generated `id` column is not
referenced by any embedded query and is omitted). -/
structure TxRow where
  user_id : Int
  type : String
  amount : Rat
  category : String
  description : String
  date : PyDateTime
deriving DecidableEq

/-- A row of the `categories` table; `user_id` is nullable. -/
structure CatRow where
  id : Int
  name : String
  type : String
  user_id : Option Int
deriving DecidableEq

/-- A row of the `budgets` table. -/
structure BudgetRow where
  user_id : Int
  category : String
  limit_amount : Rat
  period : String
deriving DecidableEq

/-- The relational store: the four tables created by `create_tables`. -/
structure DBState where
  users : List UserRow
  transactions : List TxRow
  categories : List CatRow
  budgets : List BudgetRow
deriving DecidableEq

/- ===== DAL connection-recovery control flow (`execute_query`,
`execute_insert`, `execute_update`). The outcome of each interaction with
the external store is supplied by a `DalEnv`; the control flow around it is
translated from the source. ===== -/

/-- Environment outcomes for one DAL operation: whether the `SELECT 1`
probe succeeds, whether `connect()` succeeds, whether the statement itself
executes without a `DatabaseError`, and whether an update touched rows. -/
structure DalEnv where
  probeOk : Bool
  connectOk : Bool
  opOk : Bool
  affected : Bool
deriving DecidableEq

/-- `check_connection`: `False` when no connection is held, otherwise the
outcome of the probe query. -/
def check_connection (conn : Option Unit) (probeOk : Bool) : Bool :=
  match conn with
  | none => false
  | some _ => probeOk

/-- `execute_query`: reconnect at most once when the connection is absent
or unhealthy; return `[]` on failure.  Result: rows, connection afterwards,
number of reconnect attempts made. -/
def execute_query {α : Type} (conn : Option Unit) (env : DalEnv)
    (rows : List α) : List α × Option Unit × Nat :=
  if !conn.isSome || !check_connection conn env.probeOk then
    if env.connectOk then
      (if env.opOk then rows else [], some (), 1)
    else ([], conn, 1)
  else
    (if env.opOk then rows else [], conn, 0)

/-- `execute_insert`: same reconnect policy; returns success. -/
def execute_insert (conn : Option Unit) (env : DalEnv) :
    Bool × Option Unit × Nat :=
  if !conn.isSome || !check_connection conn env.probeOk then
    if env.connectOk then (env.opOk, some (), 1) else (false, conn, 1)
  else (env.opOk, conn, 0)

/-- `execute_update`: same reconnect policy; returns `True` only if the
statement succeeded and at least one row was affected. -/
def execute_update (conn : Option Unit) (env : DalEnv) :
    Bool × Option Unit × Nat :=
  if !conn.isSome || !check_connection conn env.probeOk then
    if env.connectOk then (env.opOk && env.affected, some (), 1)
    else (false, conn, 1)
  else (env.opOk && env.affected, conn, 0)

/-- A sequence of `execute_query` operations, threading the connection and
summing the reconnect attempts. -/
def runQueries {α : Type} (conn : Option Unit) (envs : List DalEnv)
    (rows : List α) : List (List α) × Option Unit × Nat :=
  match envs with
  | [] => ([], conn, 0)
  | e :: rest =>
    let r := execute_query conn e rows
    let rs := runQueries r.2.1 rest rows
    (r.1 :: rs.1, rs.2.1, r.2.2 + rs.2.2)

/- ===== Data-level operations: the semantics of the SQL statements issued
by `DatabaseManager` methods, over `DBState`, on the healthy-connection
path. ===== -/

/-- `add_user`: two-step upsert — `UPDATE users SET name, currency WHERE
user_id`; if no row was affected, `INSERT INTO users`. -/
def add_user (db : DBState) (uid : Int) (name currency : String) :
    DBState × Bool :=
  if db.users.any (fun u => u.user_id == uid) then
    ({db with users := db.users.map (fun u =>
        if u.user_id == uid then {u with name := name, currency := currency}
        else u)}, true)
  else
    ({db with users := db.users ++ [⟨uid, name, currency⟩]}, true)

/-- `add_transaction`: `INSERT INTO transactions (user_id, type, amount,
category, description, date) VALUES (..., NOW())`. -/
def add_transaction (db : DBState) (uid : Int) (ty : String) (amount : Rat)
    (category description : String) (now : PyDateTime) : DBState × Bool :=
  ({db with transactions :=
      db.transactions ++ [⟨uid, ty, amount, category, description, now⟩]}, true)

/-- Insertion into a list sorted by category name (`ORDER BY name`). -/
def insertByName (c : CatRow) : List CatRow → List CatRow
  | [] => [c]
  | d :: rest =>
    if c.name ≤ d.name then c :: d :: rest else d :: insertByName c rest

/-- Sorting a category list by name (`ORDER BY name`). -/
def sortByName : List CatRow → List CatRow
  | [] => []
  | c :: rest => insertByName c (sortByName rest)

/-- `get_categories`: user categories, optionally filtered by type,
ordered by name. -/
def get_categories (db : DBState) (uid : Int) (ctype : Option String) :
    List CatRow :=
  match ctype with
  | some t =>
    sortByName (db.categories.filter (fun c =>
      c.user_id == some uid && c.type == t))
  | none =>
    sortByName (db.categories.filter (fun c => c.user_id == some uid))

/-- The period start computed inside `check_budget_exceeded`: first day of
the current month at midnight for `month`, otherwise
`now - timedelta(days=now.weekday())` with the time fields zeroed. -/
def periodStart (now : PyDateTime) (period : String) : PyDateTime :=
  if period = "month" then
    {now with day := 1, hour := 0, minute := 0, second := 0, microsecond := 0}
  else
    atMidnight (subDaysD now now.weekday)

/-- `check_budget_exceeded`: look up the budget row for (user, category,
period); with no row return `(False, 0, 0)`; otherwise sum expense
transactions of that category with `date >= period start` and compare with
the limit. -/
def check_budget_exceeded (db : DBState) (now : PyDateTime) (uid : Int)
    (category period : String) : Bool × Rat × Rat :=
  match db.budgets.filter (fun b =>
      b.user_id == uid && b.category == category && b.period == period) with
  | [] => (false, 0, 0)
  | b :: _ =>
    let start := periodStart now period
    let spent := ((db.transactions.filter (fun t =>
        t.user_id == uid && t.category == category && t.type == "expense"
          && dtLe start t.date)).map (fun t => t.amount)).sum
    (decide (b.limit_amount < spent), spent, b.limit_amount)

/-- One row of the `GROUP BY type` result of the monthly-summary query. -/
structure SummaryRow where
  type : String
  total : Rat
  count : Nat
deriving DecidableEq

/-- The monthly summary record built by `get_monthly_summary`. -/
structure Summary where
  income : Rat
  expense : Rat
  income_count : Nat
  expense_count : Nat
  balance : Rat
deriving DecidableEq

/-- The `SELECT type, SUM(amount), COUNT(*) ... WHERE user_id = %s AND
date BETWEEN %s AND %s GROUP BY type` query of `get_monthly_summary`. -/
def monthlyRows (db : DBState) (uid : Int) (y : Int) (m : Nat) :
    List SummaryRow :=
  let filtered := db.transactions.filter (fun t =>
    t.user_id == uid
      && (dtLe ⟨y, m, 1, 0, 0, 0, 0⟩ t.date
        && dtLe t.date ⟨y, m, daysInMonth y m, 23, 59, 59, 0⟩))
  ((filtered.map (fun t => t.type)).dedup).map (fun k =>
    ⟨k, ((filtered.filter (fun t => t.type == k)).map (fun t => t.amount)).sum,
      (filtered.filter (fun t => t.type == k)).length⟩)

/-- The body of the result loop in `get_monthly_summary`: an `income` row
sets the income total and count, an `expense` row the expense ones. -/
def applyRow (s : Summary) (r : SummaryRow) : Summary :=
  if r.type = "income" then
    {s with income := r.total, income_count := r.count}
  else if r.type = "expense" then
    {s with expense := r.total, expense_count := r.count}
  else s

/-- `get_monthly_summary`: aggregate the month window, fill totals with
zero defaults, and set `balance = income - expense`. -/
def get_monthly_summary (db : DBState) (uid : Int) (y : Int) (m : Nat) :
    Summary :=
  let s := (monthlyRows db uid y m).foldl applyRow ⟨0, 0, 0, 0, 0⟩
  {s with balance := s.income - s.expense}

/-- `get_weekly_summary`: computes `end_date = start_date +
timedelta(days=6, hours=23, minutes=59, seconds=59)` but then delegates to
`get_monthly_summary` for the start date's calendar month, ignoring the
week end boundary (translated as in the source). -/
def get_weekly_summary (db : DBState) (uid : Int) (start : PyDateTime) :
    Summary :=
  let _end_date := addDelta start 6 23 59 59
  get_monthly_summary db uid start.year start.month

/- ===== Dialogue state machine (`bot.py`): per-user session store and the
message / callback handlers. ===== -/

/-- The `state` value stored in a `user_states` entry. -/
inductive SState where
  | waiting_type
  | waiting_amount
  | waiting_category
  | waiting_description
deriving DecidableEq

/-- One `user_states[user_id]` dictionary: the dialogue state plus the
partially captured transaction fields. -/
structure SessionInfo where
  state : SState
  type : Option String
  amount : Option Rat
  category : Option String
  description : Option String
deriving DecidableEq

/-- The in-memory session store `self.user_states`; absence of an entry is
the idle state. -/
def UserStates : Type := Int → Option SessionInfo

/-- Store or delete the entry of one user. -/
def setUS (states : UserStates) (uid : Int) (v : Option SessionInfo) :
    UserStates :=
  fun u => if u = uid then v else states u

/-- `clear_user_state`: delete the entry if present. -/
def clear_user_state (states : UserStates) (uid : Int) : UserStates :=
  if (states uid).isSome then setUS states uid none else states

/-- Messages the handlers send back (render texts abstracted). -/
inductive BotReply where
  | guidance
  | invalidAmount
  | chooseCategory (cats : List CatRow)
  | noCategories
  | enterAmount
  | enterDescription
  | saved
  | cancelled
deriving DecidableEq

/-- The net effect of one handler call: the session store, the relational
store, and the replies sent. -/
structure MsgResult where
  states : UserStates
  db : DBState
  replies : List BotReply

/-- Python `str.startswith(p)`: prefix test over the character lists. -/
def hasPrefix : List Char → List Char → Bool
  | [], _ => true
  | _ :: _, [] => false
  | p :: ps, c :: cs => p == c && hasPrefix ps cs

/-- Python `str.split("_")` for a single-character separator, over the
character list of the string. -/
def splitU : List Char → List (List Char)
  | [] => [[]]
  | c :: rest =>
    if c = '_' then [] :: splitU rest
    else
      match splitU rest with
      | g :: gs => (c :: g) :: gs
      | [] => [[c]]

/-- `data.split("_")[1]` as used by `handle_callback` (index default `""`
models only the prefix-guarded calls, where a separator is present). -/
def splitArg (data : String) : String :=
  String.mk ((splitU data.data).getD 1 [])

/-- Python `str.strip()`: drop leading and trailing whitespace from a
character list. -/
def trimChars (l : List Char) : List Char :=
  (((l.dropWhile Char.isWhitespace).reverse.dropWhile
    Char.isWhitespace).reverse)

/-- Numeric value of a list of decimal digit characters. -/
def digitsVal (l : List Char) : Nat :=
  l.foldl (fun n c => 10 * n + (c.toNat - 48)) 0

/-- Python `float(text)` on finite decimal literals, with the value taken
exactly as a rational: optional surrounding whitespace, optional sign,
digits with an optional fractional part, and an optional exponent.  (The
special forms `inf`/`nan` and digit-group underscores are outside the
model.) -/
def pyFloat (s : String) : Option Rat :=
  let cs := trimChars s.data
  let sgn : Rat := match cs with
    | '-' :: _ => -1
    | _ => 1
  let cs1 := match cs with
    | '+' :: t => t
    | '-' :: t => t
    | _ => cs
  let ip := cs1.takeWhile Char.isDigit
  let cs2 := cs1.dropWhile Char.isDigit
  let fp := match cs2 with
    | '.' :: t => t.takeWhile Char.isDigit
    | _ => []
  let cs3 := match cs2 with
    | '.' :: t => t.dropWhile Char.isDigit
    | _ => cs2
  if ip.isEmpty && fp.isEmpty then none
  else
    let base : Rat :=
      (digitsVal ip : Rat) + (digitsVal fp : Rat) / (10 : Rat) ^ fp.length
    match cs3 with
    | [] => some (sgn * base)
    | e :: t =>
      if e = 'e' || e = 'E' then
        let neg : Bool := match t with
          | '-' :: _ => true
          | _ => false
        let t1 := match t with
          | '+' :: u => u
          | '-' :: u => u
          | _ => t
        let ed := t1.takeWhile Char.isDigit
        let t2 := t1.dropWhile Char.isDigit
        if ed.isEmpty || !t2.isEmpty then none
        else
          let p : Rat := (10 : Rat) ^ (digitsVal ed)
          some (sgn * (if neg then base / p else base * p))
      else none

/-- `handle_message`: idle users get a guidance reply; `waiting_amount`
parses the text as a number (reprompting in place on failure);
`waiting_description` stores the description, inserts the transaction and
destroys the session.  `none` models the uncaught `KeyError` raised when
the terminal step finds no captured type or amount. -/
def handle_message (db : DBState) (states : UserStates) (uid : Int)
    (text : String) (now : PyDateTime) : Option MsgResult :=
  match states uid with
  | none => some ⟨states, db, [BotReply.guidance]⟩
  | some info =>
    match info.state with
    | SState.waiting_amount =>
      match pyFloat text with
      | some a =>
        let info2 := {info with amount := some a,
                                state := SState.waiting_category}
        let cats := get_categories db uid info.type
        some ⟨setUS states uid (some info2), db,
          [if cats.isEmpty then BotReply.noCategories
           else BotReply.chooseCategory (cats.take 5)]⟩
      | none => some ⟨states, db, [BotReply.invalidAmount]⟩
    | SState.waiting_description =>
      match info.type, info.amount with
      | some ty, some a =>
        let info2 := {info with description := some text}
        let ins := add_transaction db uid ty a
          (info2.category.getD "Other") (info2.description.getD "") now
        some ⟨setUS states uid none, ins.1, [BotReply.saved]⟩
      | _, _ => none
    | _ => some ⟨states, db, []⟩

/-- `handle_callback`: a `type_*` selection installs a fresh
`waiting_amount` session unconditionally; a `cat_*` selection stores the
raw id string and advances to `waiting_description` only when a session
exists; anything else does nothing. -/
def handle_callback (db : DBState) (states : UserStates) (uid : Int)
    (data : String) : MsgResult :=
  if hasPrefix "type_".data data.data then
    ⟨setUS states uid
        (some ⟨SState.waiting_amount, some (splitArg data), none, none, none⟩),
      db, [BotReply.enterAmount]⟩
  else if hasPrefix "cat_".data data.data then
    match states uid with
    | some info =>
      let info2 := {info with category := some (splitArg data),
                              state := SState.waiting_description}
      ⟨setUS states uid (some info2), db, [BotReply.enterDescription]⟩
    | none => ⟨states, db, []⟩
  else ⟨states, db, []⟩

/-- `cancel_command`: destroy the session and confirm. -/
def cancel_command (db : DBState) (states : UserStates) (uid : Int) :
    MsgResult :=
  ⟨clear_user_state states uid, db, [BotReply.cancelled]⟩

/- ===== Specification-side vocabulary: independent statements of the
windows and period boundaries the claims describe. ===== -/

/-- A Gregorian leap year, stated by divisibility. -/
def isLeapSpec (y : Int) : Prop :=
  (4 ∣ y ∧ ¬ (100 ∣ y)) ∨ 400 ∣ y

instance (y : Int) : Decidable (isLeapSpec y) := by
  unfold isLeapSpec; infer_instance

/-- Month lengths by the standard calendar rules, including leap years. -/
def daysInMonthSpec (y : Int) (m : Nat) : Nat :=
  match m with
  | 1 => 31
  | 2 => if isLeapSpec y then 29 else 28
  | 3 => 31
  | 4 => 30
  | 5 => 31
  | 6 => 30
  | 7 => 31
  | 8 => 31
  | 9 => 30
  | 10 => 31
  | 11 => 30
  | 12 => 31
  | _ => 0

/-- Membership in the calendar-month window of the claims: from the first
day of the month at 00:00:00 through the last day at 23:59:59. -/
def monthWindowB (y : Int) (m : Nat) (d : PyDateTime) : Bool :=
  dtLe ⟨y, m, 1, 0, 0, 0, 0⟩ d
    && dtLe d ⟨y, m, daysInMonthSpec y m, 23, 59, 59, 0⟩

/-- Total income of a user inside the claimed calendar-month window. -/
def incomeInMonth (db : DBState) (uid : Int) (y : Int) (m : Nat) : Rat :=
  ((db.transactions.filter (fun t =>
      t.user_id == uid && monthWindowB y m t.date
        && t.type == "income")).map (fun t => t.amount)).sum

/-- Total expense of a user inside the claimed calendar-month window. -/
def expenseInMonth (db : DBState) (uid : Int) (y : Int) (m : Nat) : Rat :=
  ((db.transactions.filter (fun t =>
      t.user_id == uid && monthWindowB y m t.date
        && t.type == "expense")).map (fun t => t.amount)).sum

/-- Expense-kind spending of a user in a category between the period start
and the current time, as the budget claim words it. -/
def spentInPeriod (db : DBState) (uid : Int) (category : String)
    (start now : PyDateTime) : Rat :=
  ((db.transactions.filter (fun t =>
      t.user_id == uid && t.category == category && t.type == "expense"
        && (dtLe start t.date && dtLe t.date now))).map
    (fun t => t.amount)).sum

/-- `start` is the most recent Monday at 00:00:00 relative to `now`: a
Monday at midnight, on a day no later than today and less than seven days
back. -/
def MostRecentMondayStart (now start : PyDateTime) : Prop :=
  start.weekday = 0 ∧ start.hour = 0 ∧ start.minute = 0 ∧ start.second = 0
    ∧ start.microsecond = 0 ∧ start.dayNum ≤ now.dayNum
    ∧ now.dayNum < start.dayNum + 7 ∧ dtLe start now = true

/-- Total income of a user inside the week window claimed for the weekly
summary: the start date through start date plus 6 days 23:59:59. -/
def weekWindowIncome (db : DBState) (uid : Int) (start : PyDateTime) : Rat :=
  ((db.transactions.filter (fun t =>
      t.user_id == uid && t.type == "income"
        && (dtLe start t.date
          && dtLe t.date (addDelta start 6 23 59 59)))).map
    (fun t => t.amount)).sum

/- ===== Concrete fixtures used by the counterexamples and witnesses. ===== -/

/-- The empty session store. -/
def emptyUS : UserStates := fun _ => none

/-- Week starting Monday 2024-01-29; its window runs through 2024-02-04
23:59:59 and crosses a month boundary. -/
def startC1 : PyDateTime := ⟨2024, 1, 29, 0, 0, 0, 0⟩

/-- Store for the weekly-summary check: one income inside the week but in
February, one income in January but before the week. -/
def dbC1 : DBState :=
  ⟨[], [⟨1, "income", 100, "Salary", "", ⟨2024, 2, 2, 10, 0, 0, 0⟩⟩,
        ⟨1, "income", 50, "Salary", "", ⟨2024, 1, 5, 10, 0, 0, 0⟩⟩], [], []⟩

/-- A Wednesday afternoon used as the current time in budget witnesses. -/
def nowW : PyDateTime := ⟨2025, 6, 18, 12, 30, 0, 0⟩

/-- Store with a weekly Food budget of 500 and one 600 expense inside the
current week. -/
def dbW : DBState :=
  ⟨[], [⟨1, "expense", 600, "Food", "", ⟨2025, 6, 17, 10, 0, 0, 0⟩⟩], [],
    [⟨1, "Food", 500, "week"⟩]⟩

/-- A session sitting at the amount step with the expense kind captured. -/
def amountSession : SessionInfo :=
  ⟨SState.waiting_amount, some "expense", none, none, none⟩

/-- A session sitting at the terminal description step. -/
def descSession : SessionInfo :=
  ⟨SState.waiting_description, some "expense", some 250, some "4", none⟩

/-- An empty relational store. -/
def dbEmpty : DBState := ⟨[], [], [], []⟩

/-- Store holding one user row for the upsert witness. -/
def dbU : DBState := ⟨[⟨7, "ann", "RUB"⟩], [], [], []⟩

/-- Environment of a permanently unreachable store: probe, connect and
statement execution all fail. -/
def deadEnv : DalEnv := ⟨false, false, false, false⟩

/- ===== Supporting lemmas ===== -/

theorem dayNumber_epoch : dayNumber 1970 1 1 = 0 := by decide

/-- Crossing the February/March boundary moves the day number by one, in
leap years and common years alike. -/
theorem dayNumber_mar_feb (y : Int) :
    dayNumber y 2 (daysInMonth y 2) = dayNumber y 3 1 - 1 := by
  have hiff : isLeap y = true ↔ (y % 4 = 0 ∧ (y % 100 ≠ 0 ∨ y % 400 = 0)) := by
    simp [isLeap]
  simp only [daysInMonth, dayNumber]
  norm_num
  obtain ⟨q, a, hk1, ha0, ha1, hq⟩ :
      ∃ q a, 400 * q + a = y ∧ 0 ≤ a ∧ a < 400 ∧ y / 400 = q :=
    ⟨y / 400, y % 400, by omega, by omega, by omega, rfl⟩
  obtain ⟨q2, b, hk2, hb0, hb1, hq2⟩ :
      ∃ q2 b, 400 * q2 + b = y - 1 ∧ 0 ≤ b ∧ b < 400 ∧ (y - 1) / 400 = q2 :=
    ⟨(y - 1) / 400, (y - 1) % 400, by omega, by omega, by omega, rfl⟩
  rw [hq, hq2]
  have ha2 : y - q * 400 = a := by omega
  have hb2 : y - 1 - q2 * 400 = b := by omega
  rw [ha2, hb2]
  split_ifs with hL
  · rw [hiff] at hL
    push_cast
    omega
  · have hL2 : ¬ (y % 4 = 0 ∧ (y % 100 ≠ 0 ∨ y % 400 = 0)) :=
      fun hc => hL (hiff.mpr hc)
    push_cast
    omega

/-- Stepping to the previous civil day decrements the day number and
preserves validity. -/
theorem predDay_spec (t : PyDateTime) (h : ValidDate t) :
    (predDay t).dayNum = t.dayNum - 1 ∧ ValidDate (predDay t) := by
  obtain ⟨y, m, d, hh, mi, sec, us⟩ := t
  obtain ⟨hm1, hm2, hd1, hd2⟩ := h
  simp only at hm1 hm2 hd1 hd2
  by_cases hd : 1 < d
  · simp only [predDay]
    rw [if_pos (show 1 < (⟨y, m, d, hh, mi, sec, us⟩ : PyDateTime).day from hd)]
    constructor
    · simp only [PyDateTime.dayNum, dayNumber]
      split_ifs <;> omega
    · simp only [ValidDate]
      exact ⟨hm1, hm2, by omega, by omega⟩
  · have hd0 : d = 1 := by omega
    subst hd0
    interval_cases m
    · constructor
      · norm_num [predDay, PyDateTime.dayNum, dayNumber, daysInMonth]
        omega
      · norm_num [predDay, ValidDate, daysInMonth]
    · constructor
      · norm_num [predDay, PyDateTime.dayNum, dayNumber, daysInMonth]
        omega
      · norm_num [predDay, ValidDate, daysInMonth]
    · constructor
      · norm_num [predDay]
        exact dayNumber_mar_feb y
      · norm_num [predDay, ValidDate]
        simp only [daysInMonth]
        split_ifs <;> norm_num
    · constructor
      · norm_num [predDay, PyDateTime.dayNum, dayNumber, daysInMonth]
        omega
      · norm_num [predDay, ValidDate, daysInMonth]
    · constructor
      · norm_num [predDay, PyDateTime.dayNum, dayNumber, daysInMonth]
        omega
      · norm_num [predDay, ValidDate, daysInMonth]
    · constructor
      · norm_num [predDay, PyDateTime.dayNum, dayNumber, daysInMonth]
        omega
      · norm_num [predDay, ValidDate, daysInMonth]
    · constructor
      · norm_num [predDay, PyDateTime.dayNum, dayNumber, daysInMonth]
        omega
      · norm_num [predDay, ValidDate, daysInMonth]
    · constructor
      · norm_num [predDay, PyDateTime.dayNum, dayNumber, daysInMonth]
        omega
      · norm_num [predDay, ValidDate, daysInMonth]
    · constructor
      · norm_num [predDay, PyDateTime.dayNum, dayNumber, daysInMonth]
        omega
      · norm_num [predDay, ValidDate, daysInMonth]
    · constructor
      · norm_num [predDay, PyDateTime.dayNum, dayNumber, daysInMonth]
        omega
      · norm_num [predDay, ValidDate, daysInMonth]
    · constructor
      · norm_num [predDay, PyDateTime.dayNum, dayNumber, daysInMonth]
        omega
      · norm_num [predDay, ValidDate, daysInMonth]
    · constructor
      · norm_num [predDay, PyDateTime.dayNum, dayNumber, daysInMonth]
        omega
      · norm_num [predDay, ValidDate, daysInMonth]



/-- Stepping back `k` civil days shifts the day number by `k`. -/
theorem subDaysD_spec (k : Nat) : ∀ (t : PyDateTime), ValidDate t →
    (subDaysD t k).dayNum = t.dayNum - k ∧ ValidDate (subDaysD t k) := by
  induction k with
  | zero =>
    intro t h
    constructor
    · simp [subDaysD]
    · simpa [subDaysD] using h
  | succ n ih =>
    intro t h
    have h1 := predDay_spec t h
    have h2 := ih (predDay t) h1.2
    unfold subDaysD at h2 ⊢
    rw [Function.iterate_succ_apply]
    constructor
    · rw [h2.1, h1.1]
      push_cast
      ring
    · exact h2.2

/-- The week branch of `periodStart` lands on the most recent Monday at
midnight. -/
theorem periodStart_week (now : PyDateTime) (h : ValidDate now) :
    MostRecentMondayStart now (periodStart now "week") := by
  have hsub := subDaysD_spec now.weekday now h
  have hstart : periodStart now "week" = atMidnight (subDaysD now now.weekday) := by
    simp [periodStart]
  rw [hstart]
  have hdn : (atMidnight (subDaysD now now.weekday)).dayNum
      = now.dayNum - now.weekday := hsub.1
  have hwd : now.weekday = ((now.dayNum + 3) % 7).toNat := rfl
  have h0 : (atMidnight (subDaysD now now.weekday)).weekday
      = ((now.dayNum - now.weekday + 3) % 7).toNat := by
    show (((subDaysD now now.weekday).dayNum + 3) % 7).toNat = _
    rw [hsub.1]
  refine ⟨?_, rfl, rfl, rfl, rfl, ?_, ?_, ?_⟩
  · rw [h0]
    omega
  · rw [hdn]
    omega
  · rw [hdn]
    omega
  · have hmic : (atMidnight (subDaysD now now.weekday)).toMicros
        = (now.dayNum - now.weekday) * 86400000000 := by
      show (((((atMidnight (subDaysD now now.weekday)).dayNum) * 24
          + ((0 : Nat) : Int)) * 60 + ((0 : Nat) : Int)) * 60
          + ((0 : Nat) : Int)) * 1000000 + ((0 : Nat) : Int) = _
      rw [hdn]
      ring
    simp only [dtLe, decide_eq_true_eq]
    rw [hmic]
    show _ ≤ (((now.dayNum * 24 + (now.hour : Int)) * 60
        + (now.minute : Int)) * 60 + (now.second : Int)) * 1000000
        + (now.microsecond : Int)
    omega

/-- Pointwise-equal predicates filter alike. -/
theorem filterCongrList {α : Type} (p q : α → Bool) :
    ∀ l : List α, (∀ a ∈ l, p a = q a) → l.filter p = l.filter q := by
  intro l
  induction l with
  | nil => intro _; rfl
  | cons a rest ih =>
    intro h
    simp only [List.filter_cons]
    rw [h a (by simp), ih (fun x hx => h x (by simp [hx]))]

/-- C2.  `check_budget_exceeded` returns `(false, 0, 0)` when no budget row
matches; otherwise it sums exactly the expense-kind transactions of the
category between the period start and now and compares them with the
stored limit, where the period start is the first day of the current
calendar month at midnight for `month` and the most recent Monday at
midnight for `week`. -/
theorem check_budget_exceeded_spec (db : DBState) (now : PyDateTime)
    (uid : Int) (cat per : String) (hv : ValidDate now)
    (hd : ∀ tx ∈ db.transactions, dtLe tx.date now = true) :
    (db.budgets.filter (fun b =>
        b.user_id == uid && b.category == cat && b.period == per) = [] →
      check_budget_exceeded db now uid cat per = (false, 0, 0)) ∧
    (∀ b l, db.budgets.filter (fun b2 =>
        b2.user_id == uid && b2.category == cat && b2.period == per)
          = b :: l →
      check_budget_exceeded db now uid cat per
        = (decide (b.limit_amount
            < spentInPeriod db uid cat (periodStart now per) now),
          spentInPeriod db uid cat (periodStart now per) now,
          b.limit_amount)) ∧
    (per = "month" →
      periodStart now per = ⟨now.year, now.month, 1, 0, 0, 0, 0⟩) ∧
    (per = "week" → MostRecentMondayStart now (periodStart now per)) := by
  refine ⟨?_, ?_, ?_, ?_⟩
  · intro h
    simp only [check_budget_exceeded, h]
  · intro b l h
    simp only [check_budget_exceeded, h]
    have hfe : db.transactions.filter (fun t =>
        t.user_id == uid && t.category == cat && t.type == "expense"
          && dtLe (periodStart now per) t.date)
        = db.transactions.filter (fun t =>
        t.user_id == uid && t.category == cat && t.type == "expense"
          && (dtLe (periodStart now per) t.date && dtLe t.date now)) := by
      refine filterCongrList _ _ _ (fun a ha => ?_)
      rw [hd a ha, Bool.and_true]
    simp only [spentInPeriod, ← hfe]
  · intro h
    subst h
    simp [periodStart]
  · intro h
    subst h
    exact periodStart_week now hv

/-- C2 witness: Wednesday 2025-06-18 with a weekly Food budget of 500 and
600 spent since Monday 2025-06-16 gives `(exceeded, spent, limit) =
(true, 600, 500)`, and the computed period start is the most recent Monday
at midnight. -/
theorem check_budget_exceeded_spec_witness :
    ValidDate nowW ∧ (∀ tx ∈ dbW.transactions, dtLe tx.date nowW = true)
      ∧ MostRecentMondayStart nowW (periodStart nowW "week")
      ∧ check_budget_exceeded dbW nowW 1 "Food" "week" = (true, 600, 500) := by
  have h := check_budget_exceeded_spec dbW nowW 1 "Food" "week"
    (by decide) (by decide)
  have hs : spentInPeriod dbW 1 "Food" (periodStart nowW "week") nowW = 600 := by
    have h1 : spentInPeriod dbW 1 "Food" (periodStart nowW "week") nowW
        = [(600 : Rat)].sum := rfl
    rw [h1]
    simp
  refine ⟨by decide, by decide, h.2.2.2 rfl, ?_⟩
  rw [h.2.1 ⟨1, "Food", 500, "week"⟩ [] rfl, hs]
  decide

/-- A summary row whose type is not `income` leaves the income fields
unchanged. -/
theorem applyRow_income_ne (s : Summary) (r : SummaryRow)
    (h : r.type ≠ "income") : (applyRow s r).income = s.income := by
  unfold applyRow
  rw [if_neg h]
  by_cases h2 : r.type = "expense"
  · rw [if_pos h2]
  · rw [if_neg h2]

/-- A summary row whose type is not `expense` leaves the expense fields
unchanged. -/
theorem applyRow_expense_ne (s : Summary) (r : SummaryRow)
    (h : r.type ≠ "expense") : (applyRow s r).expense = s.expense := by
  unfold applyRow
  by_cases h1 : r.type = "income"
  · rw [if_pos h1]
  · rw [if_neg h1, if_neg h]

/-- Folding the summary loop over rows generated from a key list: the
income total is the one attached to the key `income` when present. -/
theorem foldl_applyRow_income (mk : String → SummaryRow)
    (hmk : ∀ k, (mk k).type = k) :
    ∀ (keys : List String) (s : Summary),
      ((keys.map mk).foldl applyRow s).income
        = if "income" ∈ keys then (mk "income").total else s.income := by
  intro keys
  induction keys with
  | nil => intro s; simp
  | cons k rest ih =>
    intro s
    simp only [List.map_cons, List.foldl_cons, List.mem_cons]
    rw [ih]
    by_cases hk : k = "income"
    · subst hk
      have happ : (applyRow s (mk "income")).income = (mk "income").total := by
        unfold applyRow
        rw [if_pos (hmk "income")]
      rw [if_pos (Or.inl rfl)]
      by_cases h2 : "income" ∈ rest
      · rw [if_pos h2]
      · rw [if_neg h2]
        exact happ
    · have happ := applyRow_income_ne s (mk k) (by rw [hmk]; exact hk)
      rw [happ]
      have hcond : ("income" = k ∨ "income" ∈ rest) ↔ "income" ∈ rest := by
        constructor
        · rintro (h1 | h1)
          · exact absurd h1.symm hk
          · exact h1
        · exact Or.inr
      by_cases h2 : "income" ∈ rest
      · rw [if_pos h2, if_pos (hcond.mpr h2)]
      · rw [if_neg h2, if_neg (fun hc => h2 (hcond.mp hc))]

/-- Folding the summary loop over rows generated from a key list: the
expense total is the one attached to the key `expense` when present. -/
theorem foldl_applyRow_expense (mk : String → SummaryRow)
    (hmk : ∀ k, (mk k).type = k) :
    ∀ (keys : List String) (s : Summary),
      ((keys.map mk).foldl applyRow s).expense
        = if "expense" ∈ keys then (mk "expense").total else s.expense := by
  intro keys
  induction keys with
  | nil => intro s; simp
  | cons k rest ih =>
    intro s
    simp only [List.map_cons, List.foldl_cons, List.mem_cons]
    rw [ih]
    by_cases hk : k = "expense"
    · subst hk
      have happ : (applyRow s (mk "expense")).expense = (mk "expense").total := by
        unfold applyRow
        rw [if_neg (by rw [hmk]; decide), if_pos (hmk "expense")]
      rw [if_pos (Or.inl rfl)]
      by_cases h2 : "expense" ∈ rest
      · rw [if_pos h2]
      · rw [if_neg h2]
        exact happ
    · have happ := applyRow_expense_ne s (mk k) (by rw [hmk]; exact hk)
      rw [happ]
      have hcond : ("expense" = k ∨ "expense" ∈ rest) ↔ "expense" ∈ rest := by
        constructor
        · rintro (h1 | h1)
          · exact absurd h1.symm hk
          · exact h1
        · exact Or.inr
      by_cases h2 : "expense" ∈ rest
      · rw [if_pos h2, if_pos (hcond.mpr h2)]
      · rw [if_neg h2, if_neg (fun hc => h2 (hcond.mp hc))]

/-- Filtering twice equals filtering by the conjunction. -/
theorem filter_filter_and {α : Type} (p q : α → Bool) :
    ∀ l : List α, (l.filter p).filter q = l.filter (fun a => p a && q a) := by
  intro l
  induction l with
  | nil => rfl
  | cons a t ih =>
    simp only [List.filter_cons]
    by_cases hp : p a <;> by_cases hq : q a <;>
      simp [hp, hq, List.filter_cons, ih]

/-- The code's `calendar.monthrange` month length equals the
specification's calendar rule. -/
theorem daysInMonth_eq_spec (y : Int) (m : Nat) :
    daysInMonth y m = daysInMonthSpec y m := by
  have hb : isLeap y = true ↔ isLeapSpec y := by
    simp only [isLeap, isLeapSpec, Bool.and_eq_true, Bool.or_eq_true,
      beq_iff_eq, bne_iff_ne, ne_eq, Int.dvd_iff_emod_eq_zero]
    omega
  rcases m with _ | _ | _ | _ | _ | _ | _ | _ | _ | _ | _ | _ | _ | m <;>
    simp only [daysInMonth, daysInMonthSpec]
  by_cases hy : isLeapSpec y
  · rw [if_pos (hb.mpr hy), if_pos hy]
  · rw [if_neg (fun hc => hy (hb.mp hc)), if_neg hy]

/-- The claimed income total splits into the month filter followed by the
type filter. -/
theorem income_sum_split (db : DBState) (uid : Int) (y : Int) (m : Nat) :
    incomeInMonth db uid y m
      = (((db.transactions.filter (fun t =>
            t.user_id == uid && monthWindowB y m t.date)).filter
              (fun t => t.type == "income")).map (fun t => t.amount)).sum := by
  unfold incomeInMonth
  rw [filter_filter_and]

/-- The claimed expense total splits into the month filter followed by the
type filter. -/
theorem expense_sum_split (db : DBState) (uid : Int) (y : Int) (m : Nat) :
    expenseInMonth db uid y m
      = (((db.transactions.filter (fun t =>
            t.user_id == uid && monthWindowB y m t.date)).filter
              (fun t => t.type == "expense")).map (fun t => t.amount)).sum := by
  unfold expenseInMonth
  rw [filter_filter_and]

/-- Folding the summary loop over the grouped rows of a transaction list
extracts the income group's total. -/
theorem foldl_income_of_rows (F : List TxRow) (s : Summary) :
    ((((F.map (fun t => t.type)).dedup).map (fun k =>
        (⟨k, ((F.filter (fun t => t.type == k)).map (fun t => t.amount)).sum,
          (F.filter (fun t => t.type == k)).length⟩ : SummaryRow))).foldl
      applyRow s).income
      = if "income" ∈ (F.map (fun t => t.type)).dedup
        then ((F.filter (fun t => t.type == "income")).map
          (fun t => t.amount)).sum
        else s.income :=
  foldl_applyRow_income (fun k =>
    ⟨k, ((F.filter (fun t => t.type == k)).map (fun t => t.amount)).sum,
      (F.filter (fun t => t.type == k)).length⟩) (fun _ => rfl) _ s

/-- Folding the summary loop over the grouped rows of a transaction list
extracts the expense group's total. -/
theorem foldl_expense_of_rows (F : List TxRow) (s : Summary) :
    ((((F.map (fun t => t.type)).dedup).map (fun k =>
        (⟨k, ((F.filter (fun t => t.type == k)).map (fun t => t.amount)).sum,
          (F.filter (fun t => t.type == k)).length⟩ : SummaryRow))).foldl
      applyRow s).expense
      = if "expense" ∈ (F.map (fun t => t.type)).dedup
        then ((F.filter (fun t => t.type == "expense")).map
          (fun t => t.amount)).sum
        else s.expense :=
  foldl_applyRow_expense (fun k =>
    ⟨k, ((F.filter (fun t => t.type == k)).map (fun t => t.amount)).sum,
      (F.filter (fun t => t.type == k)).length⟩) (fun _ => rfl) _ s

/-- C9.  The monthly summary aggregates exactly the transactions inside
the calendar-month window (first day 00:00:00 through last day 23:59:59,
month length by the standard calendar rules including leap years), the
income and expense totals default to zero, the balance is income minus
expense, and a month without transactions yields the all-zero summary. -/
theorem monthly_summary_spec (db : DBState) (uid : Int) (y : Int) (m : Nat) :
    (get_monthly_summary db uid y m).income = incomeInMonth db uid y m
      ∧ (get_monthly_summary db uid y m).expense = expenseInMonth db uid y m
      ∧ (get_monthly_summary db uid y m).balance
          = incomeInMonth db uid y m - expenseInMonth db uid y m
      ∧ (db.transactions.filter (fun t =>
            t.user_id == uid && monthWindowB y m t.date) = [] →
          get_monthly_summary db uid y m = ⟨0, 0, 0, 0, 0⟩) := by
  have hpred : (fun t : TxRow => t.user_id == uid
      && (dtLe ⟨y, m, 1, 0, 0, 0, 0⟩ t.date
        && dtLe t.date ⟨y, m, daysInMonth y m, 23, 59, 59, 0⟩))
      = (fun t : TxRow => t.user_id == uid && monthWindowB y m t.date) := by
    funext t
    simp only [monthWindowB, daysInMonth_eq_spec]
  have hI : (get_monthly_summary db uid y m).income = incomeInMonth db uid y m := by
    simp only [get_monthly_summary, monthlyRows, hpred]
    rw [foldl_income_of_rows]
    by_cases hin : "income" ∈ ((db.transactions.filter (fun t =>
        t.user_id == uid && monthWindowB y m t.date)).map
          (fun t => t.type)).dedup
    · rw [if_pos hin, income_sum_split]
    · rw [if_neg hin, income_sum_split]
      have hnil : (db.transactions.filter (fun t =>
          t.user_id == uid && monthWindowB y m t.date)).filter
            (fun t => t.type == "income") = [] := by
        rw [List.filter_eq_nil_iff]
        intro t ht hty
        exact hin (List.mem_dedup.mpr
          (List.mem_map.mpr ⟨t, ht, beq_iff_eq.mp hty⟩))
      rw [hnil]
      simp
  have hE : (get_monthly_summary db uid y m).expense
      = expenseInMonth db uid y m := by
    simp only [get_monthly_summary, monthlyRows, hpred]
    rw [foldl_expense_of_rows]
    by_cases hin : "expense" ∈ ((db.transactions.filter (fun t =>
        t.user_id == uid && monthWindowB y m t.date)).map
          (fun t => t.type)).dedup
    · rw [if_pos hin, expense_sum_split]
    · rw [if_neg hin, expense_sum_split]
      have hnil : (db.transactions.filter (fun t =>
          t.user_id == uid && monthWindowB y m t.date)).filter
            (fun t => t.type == "expense") = [] := by
        rw [List.filter_eq_nil_iff]
        intro t ht hty
        exact hin (List.mem_dedup.mpr
          (List.mem_map.mpr ⟨t, ht, beq_iff_eq.mp hty⟩))
      rw [hnil]
      simp
  have hB : (get_monthly_summary db uid y m).balance
      = (get_monthly_summary db uid y m).income
        - (get_monthly_summary db uid y m).expense := rfl
  refine ⟨hI, hE, by rw [hB, hI, hE], ?_⟩
  intro h0
  rw [← hpred] at h0
  simp only [get_monthly_summary, monthlyRows, h0]
  simp

/-- C9 witness: a user and month with no transactions produce the all-zero
summary. -/
theorem monthly_summary_spec_witness :
    (dbEmpty.transactions.filter (fun t =>
        t.user_id == 5 && monthWindowB 2025 2 t.date) = [])
      ∧ get_monthly_summary dbEmpty 5 2025 2 = ⟨0, 0, 0, 0, 0⟩ :=
  ⟨rfl, (monthly_summary_spec dbEmpty 5 2025 2).2.2.2 rfl⟩

/-- C1.  On the failing input, the weekly summary for the week starting
Monday 2024-01-29 returns the January calendar-month income (50) instead
of the income inside the claimed week window (100): the week end boundary
is computed but ignored in favour of `get_monthly_summary`. -/
theorem weekly_summary_uses_month_bounds :
    (get_weekly_summary dbC1 1 startC1).income = 50
      ∧ weekWindowIncome dbC1 1 startC1 = 100
      ∧ (50 : Rat) ≠ 100 := by
  refine ⟨?_, ?_, by norm_num⟩
  · have h : (get_weekly_summary dbC1 1 startC1).income = [(50 : Rat)].sum := rfl
    rw [h]
    simp
  · have h : weekWindowIncome dbC1 1 startC1 = [(100 : Rat)].sum := rfl
    rw [h]
    simp

/-- The update step of the user upsert rewrites the unique matching row to
the new values. -/
theorem filter_map_upsert (uid : Int) (n c : String) :
    ∀ l : List UserRow,
      (l.filter (fun u => u.user_id == uid)).length ≤ 1 →
      l.any (fun u => u.user_id == uid) = true →
      (l.map (fun u => if u.user_id == uid
          then {u with name := n, currency := c} else u)).filter
        (fun u => u.user_id == uid) = [⟨uid, n, c⟩] := by
  intro l
  induction l with
  | nil => intro _ h; simp at h
  | cons a t ih =>
    intro hlen hany
    simp only [List.map_cons, List.filter_cons]
    by_cases ha : (a.user_id == uid) = true
    · have hauid : a.user_id = uid := beq_iff_eq.mp ha
      rw [if_pos ha]
      have htn : t.filter (fun u => u.user_id == uid) = [] := by
        simp only [List.filter_cons, if_pos ha, List.length_cons] at hlen
        have h0 : (t.filter (fun u => u.user_id == uid)).length = 0 := by
          omega
        exact List.length_eq_zero.mp h0
      have htm : (t.map (fun u => if u.user_id == uid
          then {u with name := n, currency := c} else u)).filter
            (fun u => u.user_id == uid) = [] := by
        rw [List.filter_eq_nil_iff]
        intro b hb
        obtain ⟨u, hu, hbu⟩ := List.mem_map.mp hb
        have hune : ¬ (u.user_id == uid) = true := by
          intro hc
          have hmem : u ∈ t.filter (fun u => u.user_id == uid) :=
            List.mem_filter.mpr ⟨hu, hc⟩
          rw [htn] at hmem
          exact absurd hmem (List.not_mem_nil u)
        rw [if_neg hune] at hbu
        subst hbu
        exact hune
      rw [htm]
      have hkeep : (({a with name := n, currency := c} : UserRow).user_id
          == uid) = true := ha
      rw [if_pos hkeep]
      obtain ⟨au, an, ac⟩ := a
      simp only at hauid
      subst hauid
      rfl
    · rw [if_neg ha, if_neg ha]
      apply ih
      · simpa [List.filter_cons, ha] using hlen
      · simpa [List.any_cons, ha] using hany

/-- One `add_user` upsert leaves exactly the one freshly-valued row for the
key, starting from a store with at most one row for it. -/
theorem add_user_once (db : DBState) (uid : Int) (n c : String)
    (h : (db.users.filter (fun u => u.user_id == uid)).length ≤ 1) :
    (add_user db uid n c).1.users.filter (fun u => u.user_id == uid)
      = [⟨uid, n, c⟩] := by
  unfold add_user
  by_cases hm : db.users.any (fun u => u.user_id == uid) = true
  · rw [if_pos hm]
    exact filter_map_upsert uid n c db.users h hm
  · rw [if_neg hm]
    have hnil : db.users.filter (fun u => u.user_id == uid) = [] := by
      rw [List.filter_eq_nil_iff]
      intro u hu hc
      refine hm ?_
      rw [List.any_eq_true]
      exact ⟨u, hu, hc⟩
    show (db.users ++ [(⟨uid, n, c⟩ : UserRow)]).filter
      (fun u => u.user_id == uid) = _
    rw [List.filter_append, hnil]
    simp

/-- C5.  Upserting the same user id twice with different values leaves
exactly one row for that id, holding the second values. -/
theorem add_user_upsert_idempotent (db : DBState) (uid : Int)
    (n1 c1 n2 c2 : String)
    (h : (db.users.filter (fun u => u.user_id == uid)).length ≤ 1) :
    ((add_user (add_user db uid n1 c1).1 uid n2 c2).1).users.filter
      (fun u => u.user_id == uid) = [⟨uid, n2, c2⟩] := by
  have h1 := add_user_once db uid n1 c1 h
  have hlen : ((add_user db uid n1 c1).1.users.filter
      (fun u => u.user_id == uid)).length ≤ 1 := by
    rw [h1]
    simp
  exact add_user_once (add_user db uid n1 c1).1 uid n2 c2 hlen

/-- C5 witness: two upserts for user 7 starting from a single-row store
leave exactly one row with the latest name and currency. -/
theorem add_user_upsert_idempotent_witness :
    (dbU.users.filter (fun u => u.user_id == 7)).length ≤ 1
      ∧ ((add_user (add_user dbU 7 "bob" "USD").1 7 "carol" "EUR").1).users.filter
          (fun u => u.user_id == 7) = [⟨7, "carol", "EUR"⟩] :=
  ⟨by decide, add_user_upsert_idempotent dbU 7 "bob" "USD" "carol" "EUR" (by decide)⟩

/-- C6.  Every DAL operation makes at most one reconnect attempt; when the
connection is absent or unhealthy and reconnecting fails, the operation
fails immediately (empty result or `False`) leaving the connection as it
was; and against a permanently unreachable store a sequence of operations
makes exactly one reconnect attempt per operation, each returning empty. -/
theorem dal_reconnect_at_most_once :
    (∀ (α : Type) (conn : Option Unit) (env : DalEnv) (rows : List α),
        (execute_query conn env rows).2.2 ≤ 1
          ∧ (execute_insert conn env).2.2 ≤ 1
          ∧ (execute_update conn env).2.2 ≤ 1)
      ∧ (∀ (α : Type) (conn : Option Unit) (env : DalEnv) (rows : List α),
          (conn = none ∨ env.probeOk = false) → env.connectOk = false →
            execute_query conn env rows = ([], conn, 1)
              ∧ execute_insert conn env = (false, conn, 1)
              ∧ execute_update conn env = (false, conn, 1))
      ∧ (∀ (α : Type) (envs : List DalEnv) (rows : List α),
          (∀ e ∈ envs, e.connectOk = false) →
            runQueries none envs rows
              = (envs.map (fun _ => ([] : List α)), none, envs.length)) := by
  refine ⟨?_, ?_, ?_⟩
  · intro α conn env rows
    refine ⟨?_, ?_, ?_⟩ <;>
      simp only [execute_query, execute_insert, execute_update] <;>
      split_ifs <;> simp
  · intro α conn env rows h hc
    rcases h with h | h
    · subst h
      refine ⟨?_, ?_, ?_⟩ <;>
        simp [execute_query, execute_insert, execute_update, hc]
    · cases conn with
      | none =>
        refine ⟨?_, ?_, ?_⟩ <;>
          simp [execute_query, execute_insert, execute_update, hc]
      | some u =>
        refine ⟨?_, ?_, ?_⟩ <;>
          simp [execute_query, execute_insert, execute_update,
            check_connection, h, hc]
  · intro α envs rows
    induction envs with
    | nil => intro _; rfl
    | cons e rest ih =>
      intro h
      have he := h e (by simp)
      have hq : execute_query (none : Option Unit) e rows = ([], none, 1) := by
        simp [execute_query, check_connection, he]
      simp only [runQueries, hq, List.map_cons, List.length_cons]
      rw [ih (fun x hx => h x (by simp [hx]))]
      simp [Nat.add_comm]

/-- C6 witness: two operations against a dead store each make exactly one
reconnect attempt and return empty. -/
theorem dal_reconnect_at_most_once_witness :
    ((none : Option Unit) = none ∨ deadEnv.probeOk = false)
      ∧ deadEnv.connectOk = false
      ∧ (∀ e ∈ [deadEnv, deadEnv], e.connectOk = false)
      ∧ execute_query (none : Option Unit) deadEnv ([3] : List Nat)
          = ([], none, 1)
      ∧ runQueries (none : Option Unit) [deadEnv, deadEnv] ([3] : List Nat)
          = ([[], []], none, 2) := by
  refine ⟨Or.inl rfl, rfl, by decide, ?_, ?_⟩
  · exact (dal_reconnect_at_most_once.2.1 Nat none deadEnv [3]
      (Or.inl rfl) rfl).1
  · have h3 := dal_reconnect_at_most_once.2.2 Nat [deadEnv, deadEnv] [3]
      (by decide)
    simpa using h3

/-- Splitting a separator-free character list yields one group. -/
theorem splitU_no_sep : ∀ l : List Char, (∀ c ∈ l, c ≠ '_') →
    splitU l = [l] := by
  intro l
  induction l with
  | nil => intro _; rfl
  | cons c rest ih =>
    intro h
    simp only [splitU]
    rw [if_neg (h c (by simp)), ih (fun x hx => h x (by simp [hx]))]

/-- `split("_")[1]` of `"cat_" ++ s` recovers `s` when `s` has no
underscore. -/
theorem splitArg_cat (s : String) (h : ∀ c ∈ s.data, c ≠ '_') :
    splitArg ("cat_" ++ s) = s := by
  have h0 : splitU s.data = [s.data] := splitU_no_sep s.data h
  have hcu : ¬ ('c' = '_') := by decide
  have hau : ¬ ('a' = '_') := by decide
  have htu : ¬ ('t' = '_') := by decide
  have h4 : splitU ('c' :: 'a' :: 't' :: '_' :: s.data)
      = ['c', 'a', 't'] :: [s.data] := by
    simp [splitU, h0, hcu, hau, htu]
  show String.mk ((splitU ("cat_" ++ s).data).getD 1 []) = s
  have hdata : ("cat_" ++ s).data = 'c' :: 'a' :: 't' :: '_' :: s.data := rfl
  rw [hdata, h4]
  rfl

/-- `"cat_" ++ s` carries the `cat_` prefix. -/
theorem hasPrefix_cat (s : String) :
    hasPrefix "cat_".data ("cat_" ++ s).data = true := by
  show hasPrefix ['c', 'a', 't', '_'] ('c' :: 'a' :: 't' :: '_' :: s.data)
    = true
  simp [hasPrefix]

/-- `"cat_" ++ s` never carries the `type_` prefix. -/
theorem hasPrefix_type_of_cat (s : String) :
    hasPrefix "type_".data ("cat_" ++ s).data = false := by
  show hasPrefix ['t', 'y', 'p', 'e', '_'] ('c' :: 'a' :: 't' :: '_' :: s.data)
    = false
  simp only [hasPrefix]
  rw [show (('t' : Char) == 'c') = false from by decide]
  rfl

/-- C7.  Cancellation destroys the user's session, leaves the relational
store untouched (no transaction is persisted), and a free-text message
sent afterwards is handled as idle input with a guidance reply. -/
theorem cancel_destroys_session (db : DBState) (states : UserStates)
    (uid : Int) (text : String) (now : PyDateTime) :
    (cancel_command db states uid).states uid = none
      ∧ (cancel_command db states uid).db = db
      ∧ (cancel_command db states uid).replies = [BotReply.cancelled]
      ∧ handle_message (cancel_command db states uid).db
          (cancel_command db states uid).states uid text now
          = some ⟨(cancel_command db states uid).states,
              (cancel_command db states uid).db, [BotReply.guidance]⟩ := by
  have hnone : (cancel_command db states uid).states uid = none := by
    simp only [cancel_command, clear_user_state]
    by_cases h : (states uid).isSome
    · rw [if_pos h]
      simp [setUS]
    · rw [if_neg h]
      exact Option.not_isSome_iff_eq_none.mp h
  refine ⟨hnone, rfl, rfl, ?_⟩
  simp only [handle_message, hnone]

/-- C3 (amended).  At the amount step, the session moves to the category
step with the parsed value stored — and the other captured fields
unchanged — exactly when the text parses as a number (the sign is not
validated); on unparsable input the session store is left untouched and
the user is reprompted. -/
theorem awaiting_amount_transition (db : DBState) (states : UserStates)
    (uid : Int) (info : SessionInfo) (text : String) (now : PyDateTime)
    (hs : states uid = some info)
    (hst : info.state = SState.waiting_amount) :
    (∀ a, pyFloat text = some a →
      ∃ r, handle_message db states uid text now = some r
        ∧ r.states uid = some {info with amount := some a
                                         state := SState.waiting_category}
        ∧ (∀ u, u ≠ uid → r.states u = states u)
        ∧ r.db = db)
    ∧ (pyFloat text = none →
      handle_message db states uid text now
        = some ⟨states, db, [BotReply.invalidAmount]⟩) := by
  constructor
  · intro a ha
    obtain ⟨r, hr⟩ : ∃ r, handle_message db states uid text now = some r := by
      simp only [handle_message, hs, hst, ha]
      exact ⟨_, rfl⟩
    refine ⟨r, hr, ?_, ?_, ?_⟩ <;>
      simp only [handle_message, hs, hst, ha, Option.some.injEq] at hr
    · rw [← hr]
      simp [setUS]
    · intro u hu
      rw [← hr]
      simp [setUS, hu]
    · rw [← hr]
  · intro ha
    simp only [handle_message, hs, hst, ha]

/-- C3 counterexample.  The input `-5` parses as a number that is not
positive, yet the session transitions to the category step with amount
`-5` stored — the transition is not restricted to positive input. -/
theorem awaiting_amount_negative_accepted :
    pyFloat "-5" = some (-5)
      ∧ ¬ (0 < (-5 : Rat))
      ∧ (handle_message dbEmpty (setUS emptyUS 7 (some amountSession)) 7
          "-5" nowW).map (fun r => r.states 7)
        = some (some ⟨SState.waiting_category, some "expense",
            some (-5), none, none⟩) := by
  have hpf : pyFloat "-5" = some (-5) := by
    have h0 : pyFloat "-5" = some ((-1 : Rat) * ((digitsVal ['5'] : Rat)
        + (digitsVal ([] : List Char) : Rat) / (10 : Rat) ^ (0 : Nat))) := rfl
    rw [h0]
    have h5 : digitsVal ['5'] = 5 := rfl
    have hz : digitsVal ([] : List Char) = 0 := rfl
    rw [h5, hz]
    norm_num
  refine ⟨hpf, by norm_num, ?_⟩
  have hlook : (setUS emptyUS 7 (some amountSession)) 7 = some amountSession :=
    rfl
  simp only [handle_message, hlook, amountSession, hpf]
  simp [setUS, amountSession]

/-- C3 witness: unparsable text at the amount step leaves the session
store unchanged and triggers a reprompt. -/
theorem awaiting_amount_transition_witness :
    (setUS emptyUS 7 (some amountSession)) 7 = some amountSession
      ∧ amountSession.state = SState.waiting_amount
      ∧ pyFloat "abc" = none
      ∧ handle_message dbEmpty (setUS emptyUS 7 (some amountSession)) 7
          "abc" nowW
        = some ⟨setUS emptyUS 7 (some amountSession), dbEmpty,
            [BotReply.invalidAmount]⟩ :=
  ⟨rfl, rfl, rfl,
    (awaiting_amount_transition dbEmpty (setUS emptyUS 7 (some amountSession))
      7 amountSession "abc" nowW rfl rfl).2 rfl⟩

/-- C4 (amended).  For a user with no active session, a callback that is
not a kind selection — in particular a stale category selection — is a
no-op on the session store; a kind-selection callback, however, installs a
fresh `waiting_amount` session for the user. -/
theorem callback_no_session_behavior (db : DBState) (states : UserStates)
    (uid : Int) (data : String) (h : states uid = none) :
    (hasPrefix "type_".data data.data = false →
        (handle_callback db states uid data).states = states)
      ∧ (hasPrefix "type_".data data.data = true →
        (handle_callback db states uid data).states uid
          = some ⟨SState.waiting_amount, some (splitArg data),
              none, none, none⟩) := by
  constructor
  · intro hnt
    unfold handle_callback
    rw [if_neg (by rw [hnt]; exact Bool.false_ne_true)]
    by_cases hc : hasPrefix "cat_".data data.data = true
    · rw [if_pos hc]
      simp [h]
    · rw [if_neg hc]
  · intro ht
    unfold handle_callback
    rw [if_pos ht]
    simp [setUS]

/-- C4 counterexample.  A user with no session who presses a stale kind
button gets a fresh `waiting_amount` session: the callback is not a no-op
on the session store. -/
theorem stale_type_callback_creates_session :
    emptyUS 7 = none
      ∧ (handle_callback dbEmpty emptyUS 7 "type_income").states 7
        = some ⟨SState.waiting_amount, some "income", none, none, none⟩ := by
  constructor
  · rfl
  · decide

/-- C4 witness: with no session, a stale category callback leaves the
session store untouched, while a kind callback creates a session. -/
theorem callback_no_session_behavior_witness :
    emptyUS 9 = none
      ∧ (handle_callback dbEmpty emptyUS 9 "cat_4").states = emptyUS
      ∧ (handle_callback dbEmpty emptyUS 9 "type_income").states 9
        = some ⟨SState.waiting_amount, some (splitArg "type_income"),
            none, none, none⟩ :=
  ⟨rfl,
    (callback_no_session_behavior dbEmpty emptyUS 9 "cat_4" rfl).1 (by decide),
    (callback_no_session_behavior dbEmpty emptyUS 9 "type_income" rfl).2
      (by decide)⟩

/-- C8.  Callback handling never writes to the relational store, and
message handling leaves it untouched except at the terminal description
step, which appends exactly the one completed transaction. -/
theorem dialogue_write_frame :
    (∀ (db : DBState) (states : UserStates) (uid : Int) (data : String),
        (handle_callback db states uid data).db = db)
      ∧ (∀ (db : DBState) (states : UserStates) (uid : Int) (text : String)
          (now : PyDateTime) (r : MsgResult),
          handle_message db states uid text now = some r →
            (states uid = none → r.db = db)
              ∧ (∀ info, states uid = some info →
                  info.state ≠ SState.waiting_description → r.db = db)
              ∧ (∀ info, states uid = some info →
                  info.state = SState.waiting_description →
                  ∃ ty a, info.type = some ty ∧ info.amount = some a
                    ∧ r.db = {db with transactions := db.transactions
                        ++ [⟨uid, ty, a, info.category.getD "Other",
                             text, now⟩]})) := by
  constructor
  · intro db states uid data
    unfold handle_callback
    split_ifs
    · rfl
    · cases states uid <;> rfl
    · rfl
  · intro db states uid text now r hr
    cases hsu : states uid with
    | none =>
      simp only [handle_message, hsu, Option.some.injEq] at hr
      refine ⟨fun _ => ?_, fun info hi => ?_, fun info hi => ?_⟩
      · rw [← hr]
      · cases hi
      · cases hi
    | some info =>
      simp only [handle_message, hsu] at hr
      have hinj : ∀ info2, (some info : Option SessionInfo) = some info2 →
          info2 = info := by
        intro info2 h2
        injection h2 with h3
        exact h3.symm
      cases hst : info.state with
      | waiting_type =>
        rw [hst] at hr
        simp only [Option.some.injEq] at hr
        refine ⟨?_, ?_, ?_⟩
        · intro h0
          cases h0
        · intro _ _ _
          rw [← hr]
        · intro info2 h2 hdesc
          rw [hinj info2 h2, hst] at hdesc
          cases hdesc
      | waiting_category =>
        rw [hst] at hr
        simp only [Option.some.injEq] at hr
        refine ⟨?_, ?_, ?_⟩
        · intro h0
          cases h0
        · intro _ _ _
          rw [← hr]
        · intro info2 h2 hdesc
          rw [hinj info2 h2, hst] at hdesc
          cases hdesc
      | waiting_amount =>
        rw [hst] at hr
        have hdb : r.db = db := by
          cases hpf : pyFloat text with
          | some a =>
            rw [hpf] at hr
            simp only [Option.some.injEq] at hr
            rw [← hr]
          | none =>
            rw [hpf] at hr
            simp only [Option.some.injEq] at hr
            rw [← hr]
        refine ⟨?_, ?_, ?_⟩
        · intro _
          exact hdb
        · intro _ _ _
          exact hdb
        · intro info2 h2 hdesc
          rw [hinj info2 h2, hst] at hdesc
          cases hdesc
      | waiting_description =>
        rw [hst] at hr
        cases hty : info.type with
        | none =>
          rw [hty] at hr
          cases hr
        | some ty =>
          rw [hty] at hr
          cases ham : info.amount with
          | none =>
            rw [ham] at hr
            cases hr
          | some a =>
            rw [ham] at hr
            simp only [Option.some.injEq] at hr
            refine ⟨?_, ?_, ?_⟩
            · intro h0
              cases h0
            · intro info2 h2 hne
              exact absurd (by rw [hinj info2 h2, hst]) hne
            · intro info2 h2 _
              rw [hinj info2 h2]
              refine ⟨ty, a, hty, ham, ?_⟩
              rw [← hr]
              rfl

/-- C8 witness: at the terminal description step the store gains exactly
the one completed transaction, while a callback leaves it untouched. -/
theorem dialogue_write_frame_witness :
    (handle_callback dbEmpty emptyUS 7 "xyz").db = dbEmpty
      ∧ (∃ r, handle_message dbEmpty (setUS emptyUS 7 (some descSession)) 7
          "lunch" nowW = some r
          ∧ ∃ ty a, descSession.type = some ty ∧ descSession.amount = some a
            ∧ r.db = {dbEmpty with transactions := dbEmpty.transactions
                ++ [⟨7, ty, a, descSession.category.getD "Other",
                     "lunch", nowW⟩]}) := by
  refine ⟨dialogue_write_frame.1 dbEmpty emptyUS 7 "xyz", ?_⟩
  obtain ⟨r, hr⟩ : ∃ r, handle_message dbEmpty
      (setUS emptyUS 7 (some descSession)) 7 "lunch" nowW = some r := ⟨_, rfl⟩
  exact ⟨r, hr, (dialogue_write_frame.2 dbEmpty
    (setUS emptyUS 7 (some descSession)) 7 "lunch" nowW r hr).2.2
      descSession rfl rfl⟩

/-- C10.  A category selection stores the raw id string from the callback
payload in the session, and the terminal step persists exactly that
session value — or the literal `Other` when no category was captured —
as the transaction's category. -/
theorem persisted_category_raw_id :
    (∀ (db : DBState) (states : UserStates) (uid : Int) (info : SessionInfo)
        (s : String), states uid = some info →
        (∀ ch ∈ s.data, ch ≠ '_') →
        (handle_callback db states uid ("cat_" ++ s)).states uid
          = some {info with category := some s,
                            state := SState.waiting_description})
      ∧ (∀ (db : DBState) (states : UserStates) (uid : Int)
          (info : SessionInfo) (ty : String) (a : Rat) (text : String)
          (now : PyDateTime) (r : MsgResult),
          states uid = some info →
          info.state = SState.waiting_description →
          info.type = some ty → info.amount = some a →
          handle_message db states uid text now = some r →
          r.db.transactions = db.transactions
            ++ [⟨uid, ty, a, info.category.getD "Other", text, now⟩]) := by
  constructor
  · intro db states uid info s hs hnu
    unfold handle_callback
    rw [if_neg (by rw [hasPrefix_type_of_cat]; exact Bool.false_ne_true),
      if_pos (hasPrefix_cat s), hs]
    rw [splitArg_cat s hnu]
    simp [setUS]
  · intro db states uid info ty a text now r hs hst hty ham hr
    simp only [handle_message, hs, hst, hty, ham, Option.some.injEq] at hr
    rw [← hr]
    rfl

/-- C10 witness: the persisted category of a completed dialogue is the raw
id string `4` captured from the callback, not a display name. -/
theorem persisted_category_raw_id_witness :
    (∀ ch ∈ ("42" : String).data, ch ≠ '_')
      ∧ (handle_callback dbEmpty (setUS emptyUS 7 (some amountSession)) 7
          ("cat_" ++ "42")).states 7
        = some {amountSession with category := some "42",
                                    state := SState.waiting_description}
      ∧ (∃ r, handle_message dbEmpty (setUS emptyUS 7 (some descSession)) 7
          "desc" nowW = some r
          ∧ r.db.transactions = dbEmpty.transactions
            ++ [⟨7, "expense", 250, descSession.category.getD "Other",
                 "desc", nowW⟩]) := by
  refine ⟨by decide, ?_, ?_⟩
  · exact persisted_category_raw_id.1 dbEmpty
      (setUS emptyUS 7 (some amountSession)) 7 amountSession "42" rfl
      (by decide)
  · obtain ⟨r, hr⟩ : ∃ r, handle_message dbEmpty
        (setUS emptyUS 7 (some descSession)) 7 "desc" nowW = some r := ⟨_, rfl⟩
    exact ⟨r, hr, persisted_category_raw_id.2 dbEmpty
      (setUS emptyUS 7 (some descSession)) 7 descSession "expense" 250
      "desc" nowW r rfl rfl rfl rfl hr⟩
